import Mathlib

/-!
Verification of the Greek-Conjugator-App data ingestion pipeline.

Shallow embedding of the two store-building variants of the repository
(`initialize_database` in `app.py`, `migrate_data` in `db_builder.py`) and of
the read-only query endpoints of `app.py` (`all_verbs`, `search_verb`,
`random_verb`, `generate_sentence`).

Modelling conventions:
* A parsed source cell is `Option String`: `none` stands for a cell that
  pandas `read_csv` reads as NaN (empty cell / NA marker); `some s` for a
  string cell.
* A source row carries the four gating columns by name and every other
  column (`Verb_Group`, the conjugation-form columns, ...) positionally in
  `extras`, mirroring the dynamic column set of the DataFrame.
* Machine randomness (`ORDER BY RANDOM()`) is modelled by an explicit index
  parameter choosing among the candidate rows of the query.
* SQLite's default `LIKE` folds case for the ASCII range only; `asciiLower`
  below reproduces exactly that fold.
-/

namespace GreekConjugator

/-- One raw source row as produced by `pd.read_csv`: the four gating columns
plus the remaining columns in source order.  `none` models a NaN cell. -/
structure Row where
  id : Option String
  greek_verb : Option String
  english_verb : Option String
  translation : Option String
  extras : List (Option String)
deriving DecidableEq, Repr

/-- One persisted row of the `verbs` table built by `app.py`: after cleaning,
every cell is a plain string (NaN has been dropped or filled with `''`). -/
structure VerbRecord where
  id : String
  greek_verb : String
  english_verb : String
  translation : String
  extras : List String
deriving DecidableEq, Repr

/-- Whitespace trimming as Python's `str.strip()` and the blank-matching
regex `^\\s*$` use it: drop whitespace characters from both ends.  Written
by structural recursion over the character list so that it evaluates inside
the kernel. -/
def strip (s : String) : String :=
  ⟨((s.data.dropWhile Char.isWhitespace).reverse.dropWhile
      Char.isWhitespace).reverse⟩

/-- Step 1 of the cleaning in `initialize_database`
(`df.replace(r'^\s*$', np.nan, regex=True)`): a cell that is empty or
whitespace-only becomes NaN. -/
def blankToNone (v : Option String) : Option String :=
  match v with
  | none => none
  | some s => if strip s = "" then none else some s

/-- Step 2 (`x.strip() if isinstance(x, str) else x`): strip the remaining
string cells. -/
def stripField (v : Option String) : Option String :=
  v.map strip

/-- Steps 1 and 2 composed, as they act on a single cell. -/
def normField (v : Option String) : Option String :=
  stripField (blankToNone v)

/-- Steps 3 and 4 of `initialize_database` on one row:
`df.dropna(subset=['ID','Greek_Verb','Translation','English_Verb'])` drops the
row when any gating cell is NaN, and `fillna('')` turns every remaining NaN
cell into the empty string. -/
def cleanRow (r : Row) : Option VerbRecord :=
  match normField r.id, normField r.greek_verb,
        normField r.english_verb, normField r.translation with
  | some i, some g, some e, some t =>
      some { id := i, greek_verb := g, english_verb := e, translation := t,
             extras := r.extras.map (fun v => (normField v).getD "") }
  | _, _, _, _ => none

/-- The full cleaning pass of `initialize_database` over the parsed rows:
the records that reach `df_cleaned.to_sql('verbs', ...)`. -/
def cleanRows (rows : List Row) : List VerbRecord :=
  rows.filterMap cleanRow

/-- Function `migrate_data` in `db_builder.py`: the only cleaning is
`df.dropna(subset=['Greek_Verb'])`; rows are persisted raw (NaN cells become
SQL NULLs), into the `conjugations` table. -/
def migrate_data (rows : List Row) : List Row :=
  rows.filter (fun r => r.greek_verb.isSome)

/-- State of the `verbs.db` file as far as `app.py` observes it:
`missing` — no file at `DATABASE` (a connection then creates an empty db, and
every query on the `verbs` table raises);
`corrupt` — file exists but `os.path.getsize < 100`, which the code itself
treats as "empty or corrupted": no usable `verbs` table, queries raise;
`valid tbl` — file exists, size at least 100, and holds `tbl` as the `verbs`
table, in insertion (rowid) order. -/
inductive DbState
  | missing
  | corrupt
  | valid (tbl : List VerbRecord)
deriving DecidableEq, Repr

/-- The `verbs` table visible to a query, if any. -/
def DbState.tableOf : DbState → Option (List VerbRecord)
  | .valid tbl => some tbl
  | _ => none

/-- The staleness branch at the top of `initialize_database`: when the file is
missing or small it is left alone (only a log line is printed); otherwise
`os.remove(DATABASE)` deletes it. -/
def preBuild : DbState → DbState
  | .missing => .missing
  | .corrupt => .corrupt
  | .valid _ => .missing

/-- The `if_exists` modes of pandas `DataFrame.to_sql`. -/
inductive SqlMode
  | replace
  | append
deriving DecidableEq, Repr

/-- Pandas `DataFrame.to_sql` on the `verbs` table: `replace` drops the old table and
writes the new rows; `append` keeps the old rows in front. -/
def toSql (mode : SqlMode) (old : Option (List VerbRecord))
    (new : List VerbRecord) : List VerbRecord :=
  match mode with
  | .replace => new
  | .append => old.getD [] ++ new

/-- Function `initialize_database` in `app.py` as a state transformer on the database
file.  `src = none` models `FileNotFoundError` from `pd.read_csv` (the
exception is caught and only logged, leaving the file as the staleness branch
left it); `src = some rows` is a successfully parsed source, which is cleaned
and written with `to_sql('verbs', ..., if_exists='replace')`. -/
def initialize_database (st : DbState) (src : Option (List Row)) : DbState :=
  let st1 := preBuild st
  match src with
  | none => st1
  | some rows => .valid (toSql .replace st1.tableOf (cleanRows rows))

/-- The case fold of SQLite's default `LIKE`: ASCII `A`–`Z` map to `a`–`z`,
every other character (all of Greek included) is left unchanged. -/
def asciiLower (c : Char) : Char :=
  if 65 ≤ c.toNat ∧ c.toNat ≤ 90 then Char.ofNat (c.toNat + 32) else c

/-- Test whether `needle` occurs as a leading segment of `hay`. -/
def beginsWith : List Char → List Char → Bool
  | [], _ => true
  | _ :: _, [] => false
  | a :: as, b :: bs => a == b && beginsWith as bs

/-- Test whether `needle` occurs as a contiguous segment of `hay`. -/
def containsSeg (needle : List Char) : List Char → Bool
  | [] => needle.isEmpty
  | c :: rest => beginsWith needle (c :: rest) || containsSeg needle rest

/-- Evaluate `field LIKE '%term%'` under SQLite's default (ASCII-only) case fold. -/
def likeContains (term field : String) : Bool :=
  containsSeg (term.data.map asciiLower) (field.data.map asciiLower)

/-- The WHERE clause of `/search`: `Greek_Verb LIKE ? OR English_Verb LIKE ?
OR Translation LIKE ?` with `?` bound to `'%' + term + '%'`. -/
def rowMatches (term : String) (r : VerbRecord) : Bool :=
  likeContains term r.greek_verb || likeContains term r.english_verb ||
    likeContains term r.translation

/-- A structured JSON reply of the query endpoints, reduced to the fields the
claims are about: the `success` flag, the selected row if any, and the
human-readable `message` if any. -/
structure ApiResponse where
  success : Bool
  verb : Option VerbRecord
  message : Option String
deriving DecidableEq, Repr

/-- Endpoint `/search` (`search_verb` in `app.py`).  `term = none` models a request
without a `term` parameter (`request.args.get('term', '')`).  A blank term is
rejected before any database access; otherwise `fetchone` returns the first
row of the table satisfying the WHERE clause, in rowid order.  On a missing
or corrupt store the `except` branch answers a structured failure. -/
def search_verb (term : Option String) (st : DbState) : ApiResponse :=
  let t := strip (term.getD "")
  if t = "" then ⟨false, none, some "Please enter a term."⟩
  else
    match st.tableOf with
    | none => ⟨false, none, some "A database error occurred."⟩
    | some tbl =>
        match tbl.find? (rowMatches t) with
        | some r => ⟨true, some r, none⟩
        | none =>
            ⟨false, none, some ("Verb '" ++ t ++ "' not found.")⟩

/-- Candidate rows of `/random_verb`:
`SELECT * FROM verbs WHERE Greek_Verb IS NOT ''`. -/
def randomCandidates (tbl : List VerbRecord) : List VerbRecord :=
  tbl.filter (fun r => r.greek_verb ≠ "")

/-- Endpoint `/random_verb` (`random_verb` in `app.py`).  `ORDER BY RANDOM() LIMIT 1`
is modelled by an explicit index `k` into the candidate list: every candidate
is the result for some `k`, and nothing else ever is. -/
def random_verb (st : DbState) (k : Nat) : ApiResponse :=
  match st.tableOf with
  | none => ⟨false, none, some "A database error occurred."⟩
  | some tbl =>
      let cands := randomCandidates tbl
      match cands.get? (k % cands.length) with
      | some r => ⟨true, some r, none⟩
      | none => ⟨false, none, some "Could not retrieve a random verb."⟩

/-- The `(ID, Greek_Verb, English_Verb, Translation, Verb_Group)` projection
returned by `/all_verbs`. -/
structure VerbSummary where
  id : String
  greek_verb : String
  english_verb : String
  translation : String
  verb_group : String
deriving DecidableEq, Repr

/-- Reply of `/all_verbs`: the projection list on success. -/
structure AllVerbsResponse where
  success : Bool
  verbs : List VerbSummary
  message : Option String
deriving DecidableEq, Repr

/-- Endpoint `/all_verbs` (`all_verbs` in `app.py`): the five-column projection of
every row, `ORDER BY Greek_Verb ASC` (SQLite BINARY collation = code-point
order, which is Lean's `String` order), with `Verb_Group` read from the
extras column of index `vgIdx` and `''` when that column does not exist.  On
a missing or corrupt store the `except` branch answers a structured
failure. -/
def all_verbs (vgIdx : Nat) (st : DbState) : AllVerbsResponse :=
  match st.tableOf with
  | none => ⟨false, [], some "Could not retrieve verb list."⟩
  | some tbl =>
      let sorted := tbl.mergeSort (fun a b => a.greek_verb ≤ b.greek_verb)
      ⟨true,
       sorted.map (fun r =>
         ⟨r.id, r.greek_verb, r.english_verb, r.translation,
          (r.extras.get? vgIdx).getD ""⟩),
       none⟩

/-- Reply of `/generate_sentence`. -/
structure SentenceResponse where
  success : Bool
  verb : Option String
  sentence : Option String
deriving DecidableEq, Repr

/-- Endpoint `/generate_sentence` (`generate_sentence` in `app.py`): a random row with
non-empty `Present_Ego` (extras column of index `peIdx`) and non-empty
`Translation`, templated into a sentence.  Randomness is the index `k`, as in
`random_verb`. -/
def generate_sentence (peIdx : Nat) (st : DbState) (k : Nat) :
    SentenceResponse :=
  match st.tableOf with
  | none => ⟨false, none, some "Error retrieving verb for sentence generation."⟩
  | some tbl =>
      let cands := tbl.filter (fun r =>
        (r.extras.get? peIdx).getD "" ≠ "" && r.translation ≠ "")
      match cands.get? (k % cands.length) with
      | some r =>
          ⟨true, some r.greek_verb,
           some ("Εγώ " ++ (r.extras.get? peIdx).getD "" ++
             " κάθε μέρα. (I " ++ r.translation ++ " every day.)")⟩
      | none => ⟨false, none, some "No verbs available to generate a sentence."⟩

/-- A source cell is blank in the sense of the spec: absent, empty, or
whitespace-only. -/
def blankCell (v : Option String) : Bool :=
  match v with
  | none => true
  | some s => strip s == ""

/-- View a cleaned record as it sits in a SQLite table: every cell a non-NULL
string.  Used to compare the `verbs` table of `app.py` with the
`conjugations` table of `db_builder.py` row by row. -/
def VerbRecord.toRow (rec : VerbRecord) : Row :=
  ⟨some rec.id, some rec.greek_verb, some rec.english_verb,
   some rec.translation, rec.extras.map some⟩

/-- A source cell that is present, already trimmed and non-empty — the cells
on which the cleaning of `initialize_database` is the identity. -/
def cleanCell (v : Option String) : Bool :=
  match v with
  | none => false
  | some s => strip s == s && s != ""

/-- A source row all of whose cells are present, trimmed and non-empty. -/
def cleanSourceRow (r : Row) : Bool :=
  cleanCell r.id && cleanCell r.greek_verb && cleanCell r.english_verb &&
    cleanCell r.translation && r.extras.all cleanCell

/-- The inverse fold of `asciiLower`: ASCII `a`–`z` map to `A`–`Z`, everything
else unchanged. -/
def asciiUpper (c : Char) : Char :=
  if 97 ≤ c.toNat ∧ c.toNat ≤ 122 then Char.ofNat (c.toNat - 32) else c

/-- Map `asciiUpper` over a string. -/
def asciiUpperStr (s : String) : String :=
  ⟨s.data.map asciiUpper⟩

/-- Strict UTF-8 decoding of a byte sequence, as Python's `utf-8` codec
applies it inside `pd.read_csv(..., encoding='utf-8')`: `none` models
`UnicodeDecodeError` (truncated sequence, bad continuation byte, overlong
form, surrogate, or out-of-range code point). -/
def utf8Decode : List Nat → Option (List Char)
  | [] => some []
  | b :: rest =>
    if b < 0x80 then
      (utf8Decode rest).map (fun cs => Char.ofNat b :: cs)
    else if b < 0xC2 then none
    else if b < 0xE0 then
      match rest with
      | b1 :: rest1 =>
        if 0x80 ≤ b1 ∧ b1 < 0xC0 then
          (utf8Decode rest1).map
            (fun cs => Char.ofNat ((b - 0xC0) * 64 + (b1 - 0x80)) :: cs)
        else none
      | [] => none
    else if b < 0xF0 then
      match rest with
      | b1 :: b2 :: rest2 =>
        if (0x80 ≤ b1 ∧ b1 < 0xC0) ∧ (0x80 ≤ b2 ∧ b2 < 0xC0) ∧
            (b = 0xE0 → 0xA0 ≤ b1) ∧ (b = 0xED → b1 < 0xA0) then
          (utf8Decode rest2).map
            (fun cs =>
              Char.ofNat ((b - 0xE0) * 4096 + (b1 - 0x80) * 64 + (b2 - 0x80))
                :: cs)
        else none
      | _ => none
    else if b < 0xF5 then
      match rest with
      | b1 :: b2 :: b3 :: rest3 =>
        if (0x80 ≤ b1 ∧ b1 < 0xC0) ∧ (0x80 ≤ b2 ∧ b2 < 0xC0) ∧
            (0x80 ≤ b3 ∧ b3 < 0xC0) ∧
            (b = 0xF0 → 0x90 ≤ b1) ∧ (b = 0xF4 → b1 < 0x90) then
          (utf8Decode rest3).map
            (fun cs =>
              Char.ofNat ((b - 0xF0) * 262144 + (b1 - 0x80) * 4096 +
                (b2 - 0x80) * 64 + (b3 - 0x80)) :: cs)
        else none
      | _ => none
    else none

/-- Decoding under `iso-8859-1`, the fallback of `initialize_database`: every
byte maps directly to the code point of the same value, so this decoding
never fails. -/
def latin1Decode (bytes : List Nat) : List Char :=
  bytes.map Char.ofNat

/-- The encoding policy of `initialize_database` in `app.py`:
`pd.read_csv(CSV_FILE, encoding='utf-8')` guarded by
`except UnicodeDecodeError`, falling back to
`pd.read_csv(CSV_FILE, encoding='iso-8859-1')`.  The returned character
stream is what the CSV parser tokenizes into the rows that enter the
cleaning steps. -/
def loadSource (bytes : List Nat) : List Char :=
  match utf8Decode bytes with
  | some cs => cs
  | none => latin1Decode bytes

/-! Helper lemmas about the cleaning of a single cell. -/

theorem normField_eq_none_iff (v : Option String) :
    normField v = none ↔ blankCell v = true := by
  cases v with
  | none => simp [normField, blankToNone, stripField, blankCell]
  | some s =>
    by_cases h : strip s = "" <;>
      simp [normField, blankToNone, stripField, blankCell, h]

theorem normField_some_ne {v : Option String} {u : String}
    (h : normField v = some u) : u ≠ "" := by
  cases v with
  | none => simp [normField, blankToNone, stripField] at h
  | some s =>
    by_cases hb : strip s = ""
    · simp [normField, blankToNone, stripField, hb] at h
    · simp [normField, blankToNone, stripField, hb] at h
      rw [← h]
      exact hb

theorem cleanRow_eq_some {r : Row} {rec : VerbRecord}
    (h : cleanRow r = some rec) :
    normField r.id = some rec.id ∧
    normField r.greek_verb = some rec.greek_verb ∧
    normField r.english_verb = some rec.english_verb ∧
    normField r.translation = some rec.translation ∧
    rec.extras = r.extras.map (fun v => (normField v).getD "") := by
  unfold cleanRow at h
  split at h
  · next i g e t hi hg he ht =>
    cases h
    exact ⟨hi, hg, he, ht, rfl⟩
  · exact absurd h (by simp)

theorem cleanCell_normField {v : Option String} (h : cleanCell v = true) :
    normField v = v ∧ ∃ s, v = some s := by
  cases v with
  | none => simp [cleanCell] at h
  | some s =>
    simp only [cleanCell, Bool.and_eq_true, beq_iff_eq, bne_iff_ne, ne_eq] at h
    obtain ⟨h1, h2⟩ := h
    have hb : ¬ strip s = "" := by rw [h1]; exact h2
    refine ⟨?_, s, rfl⟩
    have hn : normField (some s) = some (strip s) := by
      simp [normField, blankToNone, stripField, hb]
    rw [hn, h1]

/-! Helper lemmas about the ASCII case fold of SQLite's `LIKE`. -/

theorem asciiLower_asciiUpper (c : Char) :
    asciiLower (asciiUpper c) = asciiLower c := by
  by_cases h : 97 ≤ c.toNat ∧ c.toNat ≤ 122
  · obtain ⟨h1, h2⟩ := h
    have key : ∀ n, 97 ≤ n → n ≤ 122 →
        asciiLower (asciiUpper (Char.ofNat n)) = asciiLower (Char.ofNat n) := by
      intro n hn1 hn2
      interval_cases n <;> decide
    have hk := key c.toNat h1 h2
    rwa [Char.ofNat_toNat] at hk
  · simp [asciiUpper, h]

theorem likeContains_asciiUpper (t f : String) :
    likeContains (asciiUpperStr t) f = likeContains t f := by
  unfold likeContains asciiUpperStr
  have hd : (String.mk (t.data.map asciiUpper)).data = t.data.map asciiUpper := rfl
  rw [hd, List.map_map]
  congr 1
  exact List.map_congr_left fun c _ => asciiLower_asciiUpper c

theorem rowMatches_asciiUpper (t : String) (r : VerbRecord) :
    rowMatches (asciiUpperStr t) r = rowMatches t r := by
  simp [rowMatches, likeContains_asciiUpper]

theorem find?_rowMatches_asciiUpper (t : String) (tbl : List VerbRecord) :
    tbl.find? (rowMatches (asciiUpperStr t)) = tbl.find? (rowMatches t) := by
  induction tbl with
  | nil => rfl
  | cons r rs ih =>
    rw [List.find?_cons, List.find?_cons, rowMatches_asciiUpper]
    cases rowMatches t r with
    | true => rfl
    | false => exact ih

/-! Helper lemmas connecting the cleaned rows to the source rows. -/

theorem cleanRows_id_sublist (rows : List Row) :
    ((cleanRows rows).map VerbRecord.id).Sublist
      (rows.filterMap (fun r => normField r.id)) := by
  induction rows with
  | nil => simp [cleanRows]
  | cons r rs ih =>
    cases hc : cleanRow r with
    | some rec =>
      have hid := (cleanRow_eq_some hc).1
      simp only [cleanRows, List.filterMap_cons, hc, hid, List.map_cons]
      exact List.Sublist.cons₂ _ ih
    | none =>
      cases hn : normField r.id with
      | none => simpa only [cleanRows, List.filterMap_cons, hc, hn] using ih
      | some u =>
        simp only [cleanRows, List.filterMap_cons, hc, hn]
        exact List.Sublist.cons _ ih

theorem cleanRow_of_cleanSourceRow {r : Row} (h : cleanSourceRow r = true) :
    ∃ rec, cleanRow r = some rec ∧ rec.toRow = r := by
  simp only [cleanSourceRow, Bool.and_eq_true, List.all_eq_true] at h
  obtain ⟨⟨⟨⟨hid, hg⟩, he⟩, ht⟩, hex⟩ := h
  obtain ⟨hid', i, hi⟩ := cleanCell_normField hid
  obtain ⟨hg', g, hgv⟩ := cleanCell_normField hg
  obtain ⟨he', e, hev⟩ := cleanCell_normField he
  obtain ⟨ht', t, htv⟩ := cleanCell_normField ht
  refine ⟨⟨i, g, e, t, r.extras.map (fun v => (normField v).getD "")⟩, ?_, ?_⟩
  · unfold cleanRow
    rw [hid', hg', he', ht', hi, hgv, hev, htv]
  · show Row.mk (some i) (some g) (some e) (some t)
      ((r.extras.map (fun v => (normField v).getD "")).map some) = r
    have hx : (r.extras.map (fun v => (normField v).getD "")).map some
        = r.extras := by
      rw [List.map_map]
      have : ∀ v ∈ r.extras, some ((normField v).getD "") = v := by
        intro v hv
        obtain ⟨hnv, s, hs⟩ := cleanCell_normField (hex v hv)
        rw [hnv, hs]
        rfl
      calc (r.extras.map (some ∘ fun v => (normField v).getD ""))
          = r.extras.map id := List.map_congr_left this
        _ = r.extras := List.map_id r.extras
    rw [hx, ← hi, ← hgv, ← hev, ← htv]

theorem mem_cleanRows_greek_ne {rows : List Row} {rec : VerbRecord}
    (h : rec ∈ cleanRows rows) : rec.greek_verb ≠ "" := by
  obtain ⟨r, _, hc⟩ := List.mem_filterMap.1 h
  exact normField_some_ne (cleanRow_eq_some hc).2.1

theorem search_verb_first_match (tbl : List VerbRecord) (u : String)
    (hsu : strip u = u) (hune : u ≠ "") :
    (search_verb (some u) (.valid tbl)).verb = tbl.find? (rowMatches u) := by
  simp only [search_verb, Option.getD_some, hsu, DbState.tableOf]
  rw [if_neg hune]
  cases hf : tbl.find? (rowMatches u) with
  | some r => rfl
  | none => rfl

/-! Claim theorems. -/

/-- C1, counterexample to the claim as stated: for the `conjugations` store
built by `migrate_data`, a row whose `ID` cell is absent (a gating field that
is blank) is nevertheless persisted, because `migrate_data` filters only on
`Greek_Verb`; so not every persisted record of a store build has all four
gating fields non-empty. -/
theorem gate_counterexample :
    blankCell (Row.id ⟨none, some "τρέχω", some "to run", some "to run", []⟩)
      = true ∧
    migrate_data [⟨none, some "τρέχω", some "to run", some "to run", []⟩] =
      [⟨none, some "τρέχω", some "to run", some "to run", []⟩] := by
  decide

/-- C1 (amended): for the `verbs` store built by `initialize_database`, every
source row with a blank (empty, whitespace-only, or absent) gating cell is
excluded, and every persisted record has all four gating fields non-empty;
the `conjugations` store built by `migrate_data` gates only on `Greek_Verb`
being non-absent. -/
theorem admissibility_gate (rows : List Row) :
    (∀ r ∈ rows,
      (blankCell r.id || blankCell r.greek_verb || blankCell r.english_verb ||
        blankCell r.translation) = true → cleanRow r = none) ∧
    (∀ rec ∈ cleanRows rows,
      rec.id ≠ "" ∧ rec.greek_verb ≠ "" ∧ rec.english_verb ≠ "" ∧
        rec.translation ≠ "") ∧
    (∀ r ∈ migrate_data rows, r.greek_verb.isSome = true) := by
  refine ⟨?_, ?_, ?_⟩
  · intro r _ h
    cases hc : cleanRow r with
    | none => rfl
    | some rec =>
      obtain ⟨hi, hg, he, ht, _⟩ := cleanRow_eq_some hc
      rcases Bool.or_eq_true_iff.1 h with h' | h4
      · rcases Bool.or_eq_true_iff.1 h' with h'' | h3
        · rcases Bool.or_eq_true_iff.1 h'' with h1 | h2
          · rw [(normField_eq_none_iff _).2 h1] at hi; exact absurd hi (by simp)
          · rw [(normField_eq_none_iff _).2 h2] at hg; exact absurd hg (by simp)
        · rw [(normField_eq_none_iff _).2 h3] at he; exact absurd he (by simp)
      · rw [(normField_eq_none_iff _).2 h4] at ht; exact absurd ht (by simp)
  · intro rec hmem
    obtain ⟨r, _, hc⟩ := List.mem_filterMap.1 hmem
    obtain ⟨hi, hg, he, ht, _⟩ := cleanRow_eq_some hc
    exact ⟨normField_some_ne hi, normField_some_ne hg,
      normField_some_ne he, normField_some_ne ht⟩
  · intro r hr
    exact (List.mem_filter.1 hr).2

/-- Closed instance of `admissibility_gate`: a row with a whitespace-only
`English_Verb` is excluded by the cleaning, and the one persisted record of a
fully populated source has all four gating fields non-empty. -/
theorem admissibility_gate_witness :
    cleanRow ⟨some "5", some "τρέχω", some "   ", some "to run", []⟩ = none ∧
    (⟨"1", "α", "b", "c", []⟩ : VerbRecord).greek_verb ≠ "" :=
  ⟨(admissibility_gate
      [⟨some "5", some "τρέχω", some "   ", some "to run", []⟩]).1 _
      (by decide) (by decide),
   ((admissibility_gate [⟨some "1", some "α", some "b", some "c", []⟩]).2.1 _
      (by decide)).2.1⟩

/-- C2, counterexample to the claim as stated: a source with two fully
populated rows sharing `ID = "1"` is persisted as two distinct records with
the same `id` — the build never deduplicates ids. -/
theorem id_uniqueness_counterexample :
    (cleanRows [⟨some "1", some "αα", some "b", some "c", []⟩,
                ⟨some "1", some "ββ", some "b", some "c", []⟩]).map
        VerbRecord.id = ["1", "1"] ∧
    (cleanRows [⟨some "1", some "αα", some "b", some "c", []⟩,
                ⟨some "1", some "ββ", some "b", some "c", []⟩]).Nodup := by
  decide

/-- C2 (amended): the build persists source ids unchanged and performs no
deduplication, so persisted ids are pairwise distinct whenever the normalized
`ID` cells of the source rows are pairwise distinct. -/
theorem id_uniqueness (rows : List Row)
    (h : (rows.filterMap (fun r => normField r.id)).Nodup) :
    ((cleanRows rows).map VerbRecord.id).Nodup :=
  h.sublist (cleanRows_id_sublist rows)

/-- Closed instance of `id_uniqueness` on a two-row source with distinct
ids. -/
theorem id_uniqueness_witness :
    ((cleanRows [⟨some "1", some "αα", some "b", some "c", []⟩,
                 ⟨some "2", some "ββ", some "b", some "c", []⟩]).map
        VerbRecord.id).Nodup :=
  id_uniqueness _ (by decide)

/-- C3: rebuilding the `verbs` store is idempotent and fully replacing — the
state after a successful build does not depend on the previous state of the
database file, building twice from the same source yields exactly the result
of building once, and the resulting table holds exactly the admissible
records of that build. -/
theorem rebuild_idempotent (st st' : DbState) (rows : List Row) :
    initialize_database (initialize_database st (some rows)) (some rows) =
      initialize_database st (some rows) ∧
    (initialize_database st (some rows)).tableOf = some (cleanRows rows) ∧
    initialize_database st (some rows) =
      initialize_database st' (some rows) :=
  ⟨rfl, rfl, rfl⟩

/-- C4, counterexample to the claim as stated: against a store holding
`Greek_Verb = "τρέχω"`, searching the lowercase term `"τρέχω"` returns the
record, but searching `"ΤΡΕΧΩ"` does not — SQLite's `LIKE` folds case only
for ASCII, so the search is not case-insensitive on Greek. -/
theorem search_case_counterexample :
    (search_verb (some "τρέχω")
        (.valid [⟨"1", "τρέχω", "to run", "to run", []⟩])).verb =
      some ⟨"1", "τρέχω", "to run", "to run", []⟩ ∧
    (search_verb (some "ΤΡΕΧΩ")
        (.valid [⟨"1", "τρέχω", "to run", "to run", []⟩])).success = false := by
  decide

/-- C4 (amended): the point-lookup search matches case-insensitively on the
ASCII range only — replacing every ASCII letter of the term by its upper-case
form does not change the result — and it returns at most one record, the
first match in table order (`List.find?`). -/
theorem search_ascii_case_fold (tbl : List VerbRecord) (t : String)
    (ht : strip t = t) (hne : t ≠ "")
    (hu : strip (asciiUpperStr t) = asciiUpperStr t) :
    (search_verb (some (asciiUpperStr t)) (.valid tbl)).verb =
      (search_verb (some t) (.valid tbl)).verb ∧
    (search_verb (some t) (.valid tbl)).verb = tbl.find? (rowMatches t) := by
  have hne' : asciiUpperStr t ≠ "" := by
    intro hEq
    apply hne
    have hdata : t.data.map asciiUpper = [] := congrArg String.data hEq
    have hnil : t.data = [] := List.map_eq_nil_iff.1 hdata
    exact String.ext hnil
  refine ⟨?_, search_verb_first_match tbl t ht hne⟩
  rw [search_verb_first_match tbl _ hu hne',
    search_verb_first_match tbl t ht hne, find?_rowMatches_asciiUpper]

/-- Closed instance of `search_ascii_case_fold` at the ASCII term
`"to run"`. -/
theorem search_ascii_case_fold_witness :
    (search_verb (some (asciiUpperStr "to run"))
        (.valid [⟨"1", "τρέχω", "to run", "το τρέξιμο", []⟩])).verb =
      (search_verb (some "to run")
        (.valid [⟨"1", "τρέχω", "to run", "το τρέξιμο", []⟩])).verb ∧
    (search_verb (some "to run")
        (.valid [⟨"1", "τρέχω", "to run", "το τρέξιμο", []⟩])).verb =
      [(⟨"1", "τρέχω", "to run", "το τρέξιμο", []⟩ : VerbRecord)].find?
        (rowMatches "to run") :=
  search_ascii_case_fold _ "to run" (by decide) (by decide) (by decide)

/-- C5: in every record persisted by the cleaning pass, a non-gating cell
(an extras column such as `Verb_Group` or a conjugation form) whose source
value was absent, empty or whitespace-only is stored as exactly the empty
string, and every non-blank source value is stored stripped of surrounding
whitespace. -/
theorem blank_normalization (rows : List Row) (r : Row) (rec : VerbRecord)
    (hr : r ∈ rows) (hc : cleanRow r = some rec) :
    rec ∈ cleanRows rows ∧
    rec.extras.length = r.extras.length ∧
    ∀ (i : Nat) (hi : i < r.extras.length) (hj : i < rec.extras.length),
      (blankCell r.extras[i] = true → rec.extras[i] = "") ∧
      (∀ s, r.extras[i] = some s → strip s ≠ "" →
        rec.extras[i] = strip s) := by
  obtain ⟨_, _, _, _, hex⟩ := cleanRow_eq_some hc
  refine ⟨List.mem_filterMap.2 ⟨r, hr, hc⟩, by rw [hex]; simp, ?_⟩
  intro i hi hj
  have hget : rec.extras[i] = (normField r.extras[i]).getD "" := by
    simp only [hex, List.getElem_map]
  constructor
  · intro hb
    rw [hget, (normField_eq_none_iff _).2 hb]
    rfl
  · intro s hs hsne
    rw [hget, hs]
    simp [normField, blankToNone, stripField, hsne]

/-- Closed instance of `blank_normalization`: a whitespace-only `Verb_Group`
persists as `""` and a padded conjugation cell persists stripped. -/
theorem blank_normalization_witness :
    (⟨"1", "α", "b", "c", ["", "x"]⟩ : VerbRecord) ∈
      cleanRows [⟨some "1", some "α", some "b", some "c",
        [some "   ", some " x "]⟩] ∧
    (⟨"1", "α", "b", "c", ["", "x"]⟩ : VerbRecord).extras.get ⟨0, by decide⟩
      = "" ∧
    (⟨"1", "α", "b", "c", ["", "x"]⟩ : VerbRecord).extras.get ⟨1, by decide⟩
      = strip " x " := by
  have h := blank_normalization
    [⟨some "1", some "α", some "b", some "c", [some "   ", some " x "]⟩]
    ⟨some "1", some "α", some "b", some "c", [some "   ", some " x "]⟩
    ⟨"1", "α", "b", "c", ["", "x"]⟩ (by decide) (by decide)
  exact ⟨h.1, (h.2.2 0 (by decide) (by decide)).1 (by decide),
    (h.2.2 1 (by decide) (by decide)).2 " x " (by decide) (by decide)⟩

/-- C6: when the source file is missing at build time the failure is caught
(the build is a total function on the state), and afterwards every query
endpoint returns a structured response with `success = false` instead of an
unhandled error. -/
theorem degraded_mode (st : DbState) (term : Option String)
    (vgIdx peIdx k : Nat) :
    (all_verbs vgIdx (initialize_database st none)).success = false ∧
    (search_verb term (initialize_database st none)).success = false ∧
    (random_verb (initialize_database st none) k).success = false ∧
    (generate_sentence peIdx (initialize_database st none) k).success
      = false := by
  have h : (initialize_database st none).tableOf = none := by
    cases st <;> rfl
  refine ⟨?_, ?_, ?_, ?_⟩
  · simp [all_verbs, h]
  · by_cases hb : strip (term.getD "") = "" <;> simp [search_verb, hb, h]
  · simp [random_verb, h]
  · simp [generate_sentence, h]

/-- C7: the loader decodes the source bytes as UTF-8 first; exactly when that
decoding fails it decodes them as ISO-8859-1 (which never fails), and the
decoded character stream is what the build pipeline consumes. -/
theorem encoding_fallback (bytes : List Nat) :
    (∀ cs, utf8Decode bytes = some cs → loadSource bytes = cs) ∧
    (utf8Decode bytes = none → loadSource bytes = latin1Decode bytes) := by
  constructor
  · intro cs h
    simp [loadSource, h]
  · intro h
    simp [loadSource, h]

/-- Closed instance of `encoding_fallback`: the UTF-8 bytes of `"τ"` decode
via UTF-8, and a lone `0xE1` byte (invalid UTF-8) falls back to
ISO-8859-1. -/
theorem encoding_fallback_witness :
    loadSource [207, 132] = ['τ'] ∧
    loadSource [225] = latin1Decode [225] :=
  ⟨(encoding_fallback [207, 132]).1 ['τ'] (by decide),
   (encoding_fallback [225]).2 (by decide)⟩

/-- C8: the `Greek_Verb IS NOT ''` filter of `/random_verb` excludes no
persisted record (every persisted record has a non-empty `greek_verb`), and
every persisted record is a possible result of a single random draw. -/
theorem random_draw_coverage (st : DbState) (rows : List Row)
    (rec : VerbRecord) :
    randomCandidates (cleanRows rows) = cleanRows rows ∧
    (rec ∈ cleanRows rows →
      ∃ k, (random_verb (initialize_database st (some rows)) k).verb
        = some rec) := by
  have h1 : randomCandidates (cleanRows rows) = cleanRows rows := by
    apply List.filter_eq_self.2
    intro a ha
    simpa using mem_cleanRows_greek_ne ha
  refine ⟨h1, ?_⟩
  intro hm
  have hst : initialize_database st (some rows) = .valid (cleanRows rows) :=
    rfl
  rw [hst]
  have hm' : rec ∈ randomCandidates (cleanRows rows) := by
    rw [h1]
    exact hm
  obtain ⟨n, hn⟩ := List.mem_iff_get.1 hm'
  refine ⟨n, ?_⟩
  have hmod : (n : Nat) % (randomCandidates (cleanRows rows)).length = n :=
    Nat.mod_eq_of_lt n.isLt
  simp only [random_verb, DbState.tableOf, hmod]
  rw [List.get?_eq_get n.isLt]
  simpa using hn

/-- Closed instance of `random_draw_coverage` on a one-record store. -/
theorem random_draw_coverage_witness :
    randomCandidates
        (cleanRows [⟨some "1", some "α", some "b", some "c", []⟩]) =
      cleanRows [⟨some "1", some "α", some "b", some "c", []⟩] ∧
    ∃ k, (random_verb (initialize_database .missing
        (some [⟨some "1", some "α", some "b", some "c", []⟩])) k).verb
      = some ⟨"1", "α", "b", "c", []⟩ :=
  ⟨(random_draw_coverage .missing
      [⟨some "1", some "α", some "b", some "c", []⟩] ⟨"1", "α", "b", "c", []⟩).1,
   (random_draw_coverage .missing
      [⟨some "1", some "α", some "b", some "c", []⟩]
      ⟨"1", "α", "b", "c", []⟩).2 (by decide)⟩

/-- C9: a `/search` request whose term is missing, empty, or whitespace-only
is answered with `success = false` and the message `"Please enter a term."`,
and the answer is the same whatever the state of the store (the store is
never consulted). -/
theorem blank_term_rejected (term : Option String) (st st' : DbState)
    (h : strip (term.getD "") = "") :
    search_verb term st = ⟨false, none, some "Please enter a term."⟩ ∧
    search_verb term st = search_verb term st' := by
  constructor <;> simp [search_verb, h]

/-- Closed instance of `blank_term_rejected`: a missing term and a
whitespace-only term. -/
theorem blank_term_rejected_witness :
    search_verb none .missing = ⟨false, none, some "Please enter a term."⟩ ∧
    search_verb (some "   ") (.valid [])
      = search_verb (some "   ") .corrupt :=
  ⟨(blank_term_rejected none .missing .corrupt (by decide)).1,
   (blank_term_rejected (some "   ") (.valid []) .corrupt (by decide)).2⟩

/-- C10, counterexample to the claim as stated: the two build variants do not
persist the same records — `migrate_data` keeps a row whose `ID` is absent
(first conjunct) and stores unnormalized cells such as a whitespace-only
`Verb_Group` (second conjunct), while `initialize_database` drops the row,
respectively stores `""`. -/
theorem build_variants_counterexample :
    (cleanRows [⟨none, some "τρέχω", some "to run", some "to run", []⟩]).map
        VerbRecord.toRow ≠
      migrate_data [⟨none, some "τρέχω", some "to run", some "to run", []⟩] ∧
    (cleanRows [⟨some "1", some "α", some "b", some "c", [some "  "]⟩]).map
        VerbRecord.toRow ≠
      migrate_data [⟨some "1", some "α", some "b", some "c", [some "  "]⟩] := by
  decide

/-- C10 (amended): the two build variants agree exactly on already-clean
sources — whenever every cell of every row is present, trimmed and non-empty,
`initialize_database` and `migrate_data` persist identical record lists; in
general they differ (`migrate_data` gates only on `Greek_Verb` and performs
no normalization). -/
theorem build_variants_agree_on_clean (rows : List Row)
    (h : ∀ r ∈ rows, cleanSourceRow r = true) :
    (cleanRows rows).map VerbRecord.toRow = migrate_data rows := by
  induction rows with
  | nil => rfl
  | cons r rs ih =>
    have hr := h r (List.mem_cons_self r rs)
    obtain ⟨rec, hc, htr⟩ := cleanRow_of_cleanSourceRow hr
    have hg : r.greek_verb.isSome = true := by
      have hgc : cleanCell r.greek_verb = true := by
        simp only [cleanSourceRow, Bool.and_eq_true] at hr
        exact hr.1.1.1.2
      cases hv : r.greek_verb with
      | none => rw [hv] at hgc; simp [cleanCell] at hgc
      | some s => rfl
    simp only [cleanRows, List.filterMap_cons, hc, List.map_cons,
      migrate_data, List.filter_cons, hg, if_true]
    rw [htr]
    have ih' := ih fun x hx => h x (List.mem_cons_of_mem r hx)
    simp only [cleanRows, migrate_data] at ih'
    exact congrArg (r :: ·) ih'

/-- Closed instance of `build_variants_agree_on_clean` on a clean one-row
source. -/
theorem build_variants_agree_witness :
    (cleanRows [⟨some "1", some "α", some "b", some "c", [some "x"]⟩]).map
        VerbRecord.toRow =
      migrate_data [⟨some "1", some "α", some "b", some "c", [some "x"]⟩] :=
  build_variants_agree_on_clean _ (by decide)

end GreekConjugator
